import Mathlib

/-
Verification development for the review scraping and sentiment analysis
program (SentimentAnalysis.py). The concurrent scraping orchestrator, the
corpus store, the lexicon sentiment analyzer and the report generator are
shallowly embedded: external effects (the network fetch of one page, the
compound polarity score of one token) become explicit parameters, and the
nondeterministic completion order of the worker pool becomes an explicit
list of page numbers folded in that order.
-/

set_option autoImplicit false

namespace SentimentAnalysis

/-- One fetched and parsed page: the extracted review titles in page
order, the extracted review bodies in page order, and the text of the
rating element when that element is present on the page. -/
structure PageData where
  titles : List String
  bodies : List String
  ratingElem : Option String
deriving DecidableEq

/-- The merged output of scrape_reviews_concurrently: the titles dict as
an insertion ordered association list keyed by global index, the review
bodies, and the product star rating. -/
structure Corpus where
  titles : List (Nat × String)
  reviews : List String
  star : Option String
deriving DecidableEq

/-- Result tuple of scrape_page: page number, optional titles keyed by
local 1-based index, optional bodies, optional star rating text. A failed
fetch yields none in the three payload slots. -/
structure PageResult where
  pageNum : Nat
  titles : Option (List (Nat × String))
  bodies : Option (List String)
  star : Option String
deriving DecidableEq

/-- Text taken for the star rating on page 1: the stripped text of the
rating element when the element is present, otherwise the literal
fallback string written by the source. -/
def ratingText (pd : PageData) : String :=
  match pd.ratingElem with
  | some s => s
  | none => "Not found"

/-- Shallow embedding of scrape_page: soup is none when the fetch failed.
Only page 1 reads the rating element, with the fallback text when the
element is missing; every other page returns none for the rating. Titles
are keyed by local index i + 1 exactly as in the enumerate based dict
comprehension of the source. -/
def scrape_page (page_num : Nat) (soup : Option PageData) : PageResult :=
  match soup with
  | none => { pageNum := page_num, titles := none, bodies := none, star := none }
  | some pd =>
      { pageNum := page_num
        titles := some (pd.titles.enumFrom 1)
        bodies := some pd.bodies
        star := if page_num = 1 then some (ratingText pd) else none }

/-- Python dict update with a single key: overwrite in place when the key
is already present, otherwise append, preserving insertion order. -/
def dictUpdate (d : List (Nat × String)) (k : Nat) (v : String) : List (Nat × String) :=
  if d.any (fun p => p.1 = k) then d.map (fun p => if p.1 = k then (k, v) else p)
  else d ++ [(k, v)]

/-- Python dict.update with a whole key value list. -/
def dictUpdateMany (d : List (Nat × String)) (kvs : List (Nat × String)) : List (Nat × String) :=
  kvs.foldl (fun acc p => dictUpdate acc p.1 p.2) d

/-- First match lookup in an association list (Python dict indexing). -/
def dlookup (d : List (Nat × String)) (k : Nat) : Option String :=
  match d with
  | [] => none
  | p :: rest => if p.1 = k then some p.2 else dlookup rest k

/-- Body of the as_completed loop of scrape_reviews_concurrently: merge
one page result into the shared accumulators. Titles and bodies are added
only when both are truthy (not none and nonempty); title keys are shifted
to i + (pageNum - 1) * 10; the star rating is stored only for a truthy
rating string coming from page 1. -/
def mergeResult (c : Corpus) (r : PageResult) : Corpus :=
  let c1 : Corpus :=
    match r.titles, r.bodies with
    | some ts, some bs =>
        if ts = [] ∨ bs = [] then c
        else { c with
                titles := dictUpdateMany c.titles
                  (ts.map (fun q => (q.1 + (r.pageNum - 1) * 10, q.2)))
                reviews := c.reviews ++ bs }
    | _, _ => c
  match r.star with
  | some s => if s = "" then c1 else if r.pageNum = 1 then { c1 with star := some s } else c1
  | none => c1

/-- One iteration of the as_completed loop, for the page p whose future
completed. -/
def scrape_step (fetch : Nat → Option PageData) (c : Corpus) (p : Nat) : Corpus :=
  mergeResult c (scrape_page p (fetch p))

/-- Shallow embedding of scrape_reviews_concurrently: fetch gives the
outcome of each page fetch (none on failure) and order is the completion
order in which the worker results are folded into the shared
accumulators. For a run with total_pages = N the order is a permutation
of the pages 1..N; with total_pages below 1 the order is empty. -/
def scrape_reviews_concurrently (fetch : Nat → Option PageData) (order : List Nat) : Corpus :=
  order.foldl (scrape_step fetch) { titles := [], reviews := [], star := none }

/-- Python dict key as it appears in the in-memory titles dict or after a
JSON reload: an int key or a string key. -/
inductive PyKey where
  | int : Nat → PyKey
  | str : String → PyKey
deriving DecidableEq

/-- JSON object keys are strings: json.dump coerces an int dict key to
its decimal string form and leaves a string key unchanged. -/
def PyKey.toJsonKey : PyKey → String
  | PyKey.int n => Nat.repr n
  | PyKey.str s => s

/-- On disk snapshot written by save_reviews_to_file: a JSON object whose
titles member has string keys only, with null for an absent rating. -/
structure StoredFile where
  star_rating : Option String
  titles : List (String × String)
  reviews : List String
deriving DecidableEq

/-- Shallow embedding of save_reviews_to_file: the data dict is built and
serialized by json.dump, which stringifies the title keys. -/
def save_reviews_to_file (titles : List (PyKey × String)) (reviews : List String)
    (star_rating : Option String) : StoredFile :=
  { star_rating := star_rating
    titles := titles.map (fun p => (p.1.toJsonKey, p.2))
    reviews := reviews }

/-- Shallow embedding of load_reviews_from_file on an existing file:
json.load yields the titles dict with string keys. -/
def load_reviews_from_file (f : StoredFile) :
    List (PyKey × String) × List String × Option String :=
  (f.titles.map (fun p => (PyKey.str p.1, p.2)), f.reviews, f.star_rating)

/-- The sentiment_counts dict of analyze_sentiment. -/
structure SentimentCounts where
  very_positive : Nat
  positive : Nat
  negative : Nat
  very_negative : Nat
  neutral : Nat
deriving DecidableEq

/-- All five counters start at zero. -/
def initialCounts : SentimentCounts :=
  { very_positive := 0, positive := 0, negative := 0, very_negative := 0, neutral := 0 }

/-- Mean compound polarity of one tokenized review; the external
SentimentIntensityAnalyzer compound score of a token is modelled by the
parameter pol, and the float arithmetic of the source by exact rational
arithmetic. -/
def scoreOf (pol : String → ℚ) (review : List String) : ℚ :=
  (review.map (fun w => pol w)).sum / (review.length : ℚ)

/-- The threshold chain of analyze_sentiment applied to the mean score,
in the exact source order. -/
def labelOf (score : ℚ) : String :=
  if score > 0.05 then "positive"
  else if score > 0 then "very positive"
  else if score < -0.05 then "negative"
  else if score < 0 then "very negative"
  else "neutral"

/-- Loop body of analyze_sentiment: an empty review is skipped, otherwise
exactly one counter is bumped and one label is appended. -/
def classifyStep (pol : String → ℚ) (st : SentimentCounts × List String)
    (review : List String) : SentimentCounts × List String :=
  if review = [] then st
  else
    let score := scoreOf pol review
    if score > 0.05 then
      ({ st.1 with positive := st.1.positive + 1 }, st.2 ++ ["positive"])
    else if score > 0 then
      ({ st.1 with very_positive := st.1.very_positive + 1 }, st.2 ++ ["very positive"])
    else if score < -0.05 then
      ({ st.1 with negative := st.1.negative + 1 }, st.2 ++ ["negative"])
    else if score < 0 then
      ({ st.1 with very_negative := st.1.very_negative + 1 }, st.2 ++ ["very negative"])
    else
      ({ st.1 with neutral := st.1.neutral + 1 }, st.2 ++ ["neutral"])

/-- Shallow embedding of analyze_sentiment over the tokenized reviews. -/
def analyze_sentiment (pol : String → ℚ) (reviews : List (List String)) :
    SentimentCounts × List String :=
  reviews.foldl (classifyStep pol) (initialCounts, [])

/-- Rows of the per review listing printed by display_SIA_results: the
source zips enumerate(review_sentiments, 1) positionally against
titles.items() and prints the enumerate index, the title text from the
titles entry, and the sentiment; the key of the titles entry is ignored. -/
def sia_pairs (review_sentiments : List String) (titles : List (Nat × String)) :
    List (Nat × String × String) :=
  (List.zip (review_sentiments.enumFrom 1) titles).map (fun q => (q.1.1, q.2.2, q.1.2))

/-- Total of the sentiment counters, as sum(total_sentiment_counts.values()). -/
def sumCounts (c : SentimentCounts) : Nat :=
  c.very_positive + c.positive + c.negative + c.very_negative + c.neutral

/-- Left pad a fraction part to four digits. -/
def pad4 (k : Nat) : String :=
  if k < 10 then "000" ++ Nat.repr k
  else if k < 100 then "00" ++ Nat.repr k
  else if k < 1000 then "0" ++ Nat.repr k
  else Nat.repr k

/-- Round to the nearest integer, ties to even, as Python float formatting
rounds (idealized to exact rationals). -/
def roundHalfEven (q : ℚ) : Int :=
  let f : Int := q.floor
  let r : ℚ := q - (f : ℚ)
  if r < 1 / 2 then f
  else if 1 / 2 < r then f + 1
  else if f % 2 = 0 then f else f + 1

/-- The percent format of the source report lines: the ratio times 100,
rendered with four decimal places and a trailing percent sign. -/
def format_pct (q : ℚ) : String :=
  let n : Int := roundHalfEven (q * 1000000)
  let m : Nat := n.natAbs
  (if n < 0 then "-" else "") ++ Nat.repr (m / 10000) ++ "." ++ pad4 (m % 10000) ++ "%"

/-- The three overall percentage strings computed by display_SIA_results;
a zero total makes the percentage expressions raise ZeroDivisionError,
modelled as an error value. -/
def display_SIA_percentages (counts : SentimentCounts) :
    Except String (String × String × String) :=
  let total := sumCounts counts
  if total = 0 then Except.error "ZeroDivisionError"
  else Except.ok
    (format_pct (((counts.very_positive : ℚ) + (counts.positive : ℚ)) / (total : ℚ)),
     format_pct (((counts.very_negative : ℚ) + (counts.negative : ℚ)) / (total : ℚ)),
     format_pct ((counts.neutral : ℚ) / (total : ℚ)))

/-- The overall positive percentage string computed by
display_BERT_results over the prediction list; an empty prediction list
makes the division raise ZeroDivisionError, modelled as an error value. -/
def display_BERT_percentage (predictions : List String) : Except String String :=
  let positive := (predictions.filter (fun s => s = "positive")).length
  let total := predictions.length
  if total = 0 then Except.error "ZeroDivisionError"
  else Except.ok (format_pct ((positive : ℚ) / (total : ℚ)))

/-- Effect of processing the page 1 result on the stored star rating: a
failed fetch leaves it unchanged, a successful fetch overwrites it with
the rating text unless that text is empty (falsy in the source). -/
def starUpd (soup : Option PageData) (old : Option String) : Option String :=
  match soup with
  | none => old
  | some pd => if ratingText pd = "" then old else some (ratingText pd)

/-- Key value pairs a successful page p contributes to the titles dict:
local 1-based indices shifted by (p - 1) * 10. -/
def pageKVs (p : Nat) (pd : PageData) : List (Nat × String) :=
  (pd.titles.enumFrom 1).map (fun q => (q.1 + (p - 1) * 10, q.2))



theorem mergeResult_star (c : Corpus) (r : PageResult) :
    (mergeResult c r).star =
      match r.star with
      | some s => if s = "" then c.star else if r.pageNum = 1 then some s else c.star
      | none => c.star := by
  rcases r with ⟨pn, ts, bs, st⟩
  cases ts <;> cases bs <;> cases st <;>
    simp only [mergeResult] <;> split_ifs <;> rfl

theorem mergeResult_titles (c : Corpus) (r : PageResult) :
    (mergeResult c r).titles =
      match r.titles, r.bodies with
      | some ts, some bs =>
          if ts = [] ∨ bs = [] then c.titles
          else dictUpdateMany c.titles
            (ts.map (fun q => (q.1 + (r.pageNum - 1) * 10, q.2)))
      | _, _ => c.titles := by
  rcases r with ⟨pn, ts, bs, st⟩
  cases ts <;> cases bs <;> cases st <;>
    simp only [mergeResult] <;> split_ifs <;> rfl

theorem mergeResult_reviews (c : Corpus) (r : PageResult) :
    (mergeResult c r).reviews =
      match r.titles, r.bodies with
      | some ts, some bs =>
          if ts = [] ∨ bs = [] then c.reviews else c.reviews ++ bs
      | _, _ => c.reviews := by
  rcases r with ⟨pn, ts, bs, st⟩
  cases ts <;> cases bs <;> cases st <;>
    simp only [mergeResult] <;> split_ifs <;> rfl

theorem scrape_step_star (fetch : Nat → Option PageData) (c : Corpus) (p : Nat) :
    (scrape_step fetch c p).star = if p = 1 then starUpd (fetch 1) c.star else c.star := by
  by_cases hp : p = 1
  · subst hp
    cases h1 : fetch 1 <;>
      simp [scrape_step, scrape_page, mergeResult_star, h1, starUpd, ratingText]
  · cases h1 : fetch p <;>
      simp [scrape_step, scrape_page, mergeResult_star, h1, hp]

theorem starUpd_idem (soup : Option PageData) (old : Option String) :
    starUpd soup (starUpd soup old) = starUpd soup old := by
  cases soup with
  | none => rfl
  | some pd => by_cases h : ratingText pd = "" <;> simp [starUpd, h]

theorem foldl_scrape_star (fetch : Nat → Option PageData) (order : List Nat) :
    ∀ c : Corpus, (order.foldl (scrape_step fetch) c).star =
      if 1 ∈ order then starUpd (fetch 1) c.star else c.star := by
  induction order with
  | nil => intro c; simp
  | cons q rest ih =>
      intro c
      simp only [List.foldl_cons, ih, List.mem_cons]
      by_cases hq : q = 1
      · subst hq
        rw [scrape_step_star]
        by_cases hr : 1 ∈ rest <;> simp [hr, starUpd_idem]
      · rw [scrape_step_star, if_neg hq]
        by_cases hr : 1 ∈ rest <;> simp [hr, Ne.symm hq]


/-- C7: the corpus star rating comes only from the page 1 fetch result.
When the page 1 fetch fails the rating is absent whatever the other pages
carry, and two runs whose fetch outcomes agree on page 1 produce the same
star rating whatever the other pages return. -/
theorem scrape_star_only_from_page_one (fetch fetch2 : Nat → Option PageData)
    (order : List Nat) :
    (fetch 1 = none → (scrape_reviews_concurrently fetch order).star = none) ∧
    (fetch2 1 = fetch 1 →
      (scrape_reviews_concurrently fetch2 order).star =
        (scrape_reviews_concurrently fetch order).star) := by
  constructor
  · intro h1
    simp [scrape_reviews_concurrently, foldl_scrape_star, h1, starUpd]
  · intro h12
    simp [scrape_reviews_concurrently, foldl_scrape_star, h12]

theorem scrape_star_only_from_page_one_witness :
    (scrape_reviews_concurrently
        (fun p => if p = 1 then none else some ⟨["B1"], ["b"], some "4.7 out of 5"⟩)
        [2, 1]).star = none :=
  (scrape_star_only_from_page_one
      (fun p => if p = 1 then none else some ⟨["B1"], ["b"], some "4.7 out of 5"⟩)
      (fun p => if p = 1 then none else some ⟨["B1"], ["b"], some "4.7 out of 5"⟩)
      [2, 1]).1 rfl

/-- C10: when page 1 is fetched and parsed successfully but the rating
element is missing from the page, the star rating of the scraped corpus
is the sentinel string Not found, a present truthy value that is stored
and reported as the product rating, rather than an absent rating. -/
theorem scrape_missing_rating_element_gives_not_found
    (fetch : Nat → Option PageData) (order : List Nat) (pd : PageData)
    (hmem : 1 ∈ order) (h1 : fetch 1 = some pd) (helem : pd.ratingElem = none) :
    (scrape_reviews_concurrently fetch order).star = some "Not found" := by
  simp [scrape_reviews_concurrently, foldl_scrape_star, hmem, h1, starUpd, ratingText, helem]

theorem scrape_missing_rating_element_gives_not_found_witness :
    (scrape_reviews_concurrently
        (fun p => if p = 1 then some ⟨["T1"], ["a"], none⟩ else none) [1]).star
      = some "Not found" :=
  scrape_missing_rating_element_gives_not_found
    (fun p => if p = 1 then some ⟨["T1"], ["a"], none⟩ else none) [1]
    ⟨["T1"], ["a"], none⟩ (by decide) rfl rfl

/-- C1: the claim says the reviews sequence of the merged corpus equals
the concatenation of the page bodies in ascending page number order
regardless of completion order. The source extends the shared reviews
list in completion order, contradicting its own comments about keeping
the order, so a two page run whose completion order is page 2 before
page 1 returns the bodies reversed: this theorem evaluates the embedded
code on that failing input and exhibits the divergence. -/
theorem scrape_reviews_follow_completion_order :
    (scrape_reviews_concurrently
        (fun p => if p = 1 then some ⟨["T1"], ["a"], some "4.5 out of 5"⟩
          else if p = 2 then some ⟨["T2"], ["b"], none⟩ else none) [2, 1]).reviews
      = ["b", "a"] ∧
    (scrape_reviews_concurrently
        (fun p => if p = 1 then some ⟨["T1"], ["a"], some "4.5 out of 5"⟩
          else if p = 2 then some ⟨["T2"], ["b"], none⟩ else none) [1, 2]).reviews
      = ["a", "b"] ∧
    (["b", "a"] : List String) ≠ ["a", "b"] := by decide

/-- C2: the claim says loading immediately after saving returns a corpus
deep equal to the original. The JSON serialization stringifies integer
title keys, so a corpus whose titles dict is keyed by the int 1 reloads
keyed by the string 1: this theorem evaluates the embedded save and load
composition at that failing input and shows the reloaded titles differ
from the saved ones. -/
theorem store_round_trip_stringifies_title_keys :
    load_reviews_from_file
        (save_reviews_to_file [(PyKey.int 1, "Great")] ["love it"] (some "4.5 out of 5"))
      = ([(PyKey.str "1", "Great")], ["love it"], some "4.5 out of 5") ∧
    ([(PyKey.str "1", "Great")] : List (PyKey × String)) ≠ [(PyKey.int 1, "Great")] := by
  decide

/-- C3 counterexample: the claim says a run with totalPages below 1 or
with every fetch failing reports a distinguishable error result. The
embedded scrape returns a plain corpus in both cases: the all failing two
page run returns the very same value as an ordinary successful one page
run whose page is empty, and the zero page run returns the plain empty
corpus, so no distinguishable error result exists. -/
theorem scrape_total_failure_returns_plain_corpus :
    scrape_reviews_concurrently (fun _ => none) [1, 2]
      = scrape_reviews_concurrently (fun _ => some ⟨[], [], some ""⟩) [1] ∧
    scrape_reviews_concurrently (fun _ => none) []
      = { titles := [], reviews := [], star := none } := by decide


theorem scrape_step_failed (fetch : Nat → Option PageData) (c : Corpus) (p : Nat)
    (h : fetch p = none) : scrape_step fetch c p = c := by
  simp [scrape_step, scrape_page, h, mergeResult]

theorem foldl_scrape_all_failed (fetch : Nat → Option PageData) (order : List Nat) :
    ∀ c : Corpus, (∀ p ∈ order, fetch p = none) →
      order.foldl (scrape_step fetch) c = c := by
  induction order with
  | nil => intro c _; rfl
  | cons q rest ih =>
      intro c h
      rw [List.foldl_cons, scrape_step_failed fetch c q (h q (by simp)),
        ih c (fun p hp => h p (by simp [hp]))]

theorem scrape_step_reviews_append (fetch : Nat → Option PageData) (c : Corpus) (p : Nat) :
    ∃ l, (scrape_step fetch c p).reviews = c.reviews ++ l := by
  rw [scrape_step, mergeResult_reviews]
  cases h : fetch p with
  | none => exact ⟨[], by simp [scrape_page]⟩
  | some pd =>
      simp only [scrape_page]
      split_ifs with hg
      · exact ⟨[], by simp⟩
      · exact ⟨pd.bodies, rfl⟩

theorem foldl_scrape_reviews_append (fetch : Nat → Option PageData) (order : List Nat) :
    ∀ c : Corpus, ∃ l, (order.foldl (scrape_step fetch) c).reviews = c.reviews ++ l := by
  induction order with
  | nil => intro c; exact ⟨[], by simp⟩
  | cons q rest ih =>
      intro c
      obtain ⟨l0, h0⟩ := scrape_step_reviews_append fetch c q
      obtain ⟨l1, h1⟩ := ih (scrape_step fetch c q)
      exact ⟨l0 ++ l1, by rw [List.foldl_cons, h1, h0, List.append_assoc]⟩

theorem enumFrom_eq_nil_iff (n : Nat) (l : List String) :
    l.enumFrom n = [] ↔ l = [] := by
  cases l <;> simp [List.enumFrom]

theorem scrape_step_reviews_success (fetch : Nat → Option PageData) (c : Corpus) (p : Nat)
    (pd : PageData) (h : fetch p = some pd) (ht : pd.titles ≠ []) (hb : pd.bodies ≠ []) :
    (scrape_step fetch c p).reviews = c.reviews ++ pd.bodies := by
  rw [scrape_step, mergeResult_reviews]
  simp only [scrape_page, h]
  rw [if_neg]
  simp [enumFrom_eq_nil_iff, ht, hb]

theorem foldl_scrape_reviews_nonempty (fetch : Nat → Option PageData) (order : List Nat)
    (p : Nat) (pd : PageData) :
    ∀ c : Corpus, p ∈ order → fetch p = some pd → pd.titles ≠ [] → pd.bodies ≠ [] →
      (order.foldl (scrape_step fetch) c).reviews ≠ [] := by
  induction order with
  | nil => intro c h; simp at h
  | cons q rest ih =>
      intro c hmem hf ht hb
      rw [List.foldl_cons]
      rcases List.mem_cons.mp hmem with hq | hrest
      · subst hq
        obtain ⟨l, hl⟩ := foldl_scrape_reviews_append fetch rest (scrape_step fetch c p)
        rw [hl, scrape_step_reviews_success fetch c p pd hf ht hb]
        simp [hb]
      · exact ih (scrape_step fetch c q) hrest hf ht hb

/-- C3 amended: scrape never reports an orchestration failure. When
every fetch of the run fails (which subsumes the empty run of a
totalPages below 1) it returns the plain empty corpus, and any run
containing a successful page with nonempty titles and nonempty bodies
returns a corpus with a nonempty reviews sequence. -/
theorem scrape_never_reports_failure (fetch : Nat → Option PageData) (order : List Nat) :
    ((∀ p ∈ order, fetch p = none) →
      scrape_reviews_concurrently fetch order = { titles := [], reviews := [], star := none }) ∧
    (∀ p ∈ order, ∀ pd : PageData, fetch p = some pd → pd.titles ≠ [] → pd.bodies ≠ [] →
      (scrape_reviews_concurrently fetch order).reviews ≠ []) := by
  constructor
  · intro h
    exact foldl_scrape_all_failed fetch order _ h
  · intro p hp pd hf ht hb
    exact foldl_scrape_reviews_nonempty fetch order p pd _ hp hf ht hb

theorem scrape_never_reports_failure_witness :
    scrape_reviews_concurrently (fun _ => none) [1, 2]
      = { titles := [], reviews := [], star := none } ∧
    (scrape_reviews_concurrently
        (fun p => if p = 1 then some ⟨["T1"], ["a"], none⟩ else none) [1, 2]).reviews ≠ [] :=
  ⟨(scrape_never_reports_failure (fun _ => none) [1, 2]).1 (fun _ _ => rfl),
   (scrape_never_reports_failure
      (fun p => if p = 1 then some ⟨["T1"], ["a"], none⟩ else none) [1, 2]).2
      1 (by decide) ⟨["T1"], ["a"], none⟩ rfl (by decide) (by decide)⟩


theorem classifyStep_nil (pol : String → ℚ) (st : SentimentCounts × List String) :
    classifyStep pol st [] = st := by
  simp [classifyStep]

theorem classifyStep_label (pol : String → ℚ) (st : SentimentCounts × List String)
    (review : List String) (h : review ≠ []) :
    (classifyStep pol st review).2 = st.2 ++ [labelOf (scoreOf pol review)] := by
  simp only [classifyStep, labelOf, if_neg h]
  split_ifs <;> rfl

theorem classifyStep_snd_length (pol : String → ℚ) (st : SentimentCounts × List String)
    (review : List String) :
    (classifyStep pol st review).2.length
      = st.2.length + (if review = [] then 0 else 1) := by
  simp only [classifyStep]
  split_ifs <;> simp

theorem classifyStep_sumCounts (pol : String → ℚ) (st : SentimentCounts × List String)
    (review : List String) :
    sumCounts (classifyStep pol st review).1
      = sumCounts st.1 + (if review = [] then 0 else 1) := by
  simp only [classifyStep]
  split_ifs <;> simp [sumCounts] <;> omega

theorem foldl_classify_filter (pol : String → ℚ) (reviews : List (List String)) :
    ∀ st, reviews.foldl (classifyStep pol) st
      = (reviews.filter (fun r => !r.isEmpty)).foldl (classifyStep pol) st := by
  induction reviews with
  | nil => intro st; rfl
  | cons r rest ih =>
      intro st
      by_cases h : r = []
      · subst h
        simp [classifyStep_nil, ih]
      · rw [List.foldl_cons, ih]
        have : (r :: rest).filter (fun r => !r.isEmpty)
            = r :: rest.filter (fun r => !r.isEmpty) := by
          simp [List.filter_cons, h]
        rw [this, List.foldl_cons]

theorem foldl_classify_snd_length (pol : String → ℚ) (reviews : List (List String)) :
    ∀ st, (reviews.foldl (classifyStep pol) st).2.length
      = st.2.length + (reviews.filter (fun r => !r.isEmpty)).length := by
  induction reviews with
  | nil => intro st; simp
  | cons r rest ih =>
      intro st
      rw [List.foldl_cons, ih, classifyStep_snd_length]
      by_cases h : r = [] <;> simp [List.filter_cons, h] <;> omega

theorem foldl_classify_sumCounts (pol : String → ℚ) (reviews : List (List String)) :
    ∀ st, sumCounts (reviews.foldl (classifyStep pol) st).1
      = sumCounts st.1 + (reviews.filter (fun r => !r.isEmpty)).length := by
  induction reviews with
  | nil => intro st; simp
  | cons r rest ih =>
      intro st
      rw [List.foldl_cons, ih, classifyStep_sumCounts]
      by_cases h : r = [] <;> simp [List.filter_cons, h] <;> omega

/-- C6: every review whose token sequence is empty is skipped entirely
by the lexicon classifier: the analysis equals the analysis of the input
with empty reviews filtered out, the per item label sequence length and
the total of the counters both equal the number of nonempty input
reviews, and that number is at most the input length. -/
theorem analyze_sentiment_skips_empty (pol : String → ℚ) (reviews : List (List String)) :
    analyze_sentiment pol reviews
        = analyze_sentiment pol (reviews.filter (fun r => !r.isEmpty)) ∧
    (analyze_sentiment pol reviews).2.length
        = (reviews.filter (fun r => !r.isEmpty)).length ∧
    sumCounts (analyze_sentiment pol reviews).1
        = (reviews.filter (fun r => !r.isEmpty)).length ∧
    (reviews.filter (fun r => !r.isEmpty)).length ≤ reviews.length := by
  refine ⟨foldl_classify_filter pol reviews _, ?_, ?_, List.length_filter_le _ _⟩
  · rw [analyze_sentiment, foldl_classify_snd_length]; simp
  · rw [analyze_sentiment, foldl_classify_sumCounts]; simp [sumCounts, initialCounts]

/-- C5: for every nonempty token sequence the lexicon classifier labels
it by applying the thresholds to the mean token polarity score in the
exact source order: above 0.05 positive, else above 0 very positive,
else below minus 0.05 negative, else below 0 very negative, else
neutral; a mean of exactly 3 hundredths is very positive, exactly 1
tenth is positive and exactly 0 is neutral. -/
theorem lexicon_threshold_policy (pol : String → ℚ) (review : List String)
    (h : review ≠ []) :
    (analyze_sentiment pol [review]).2 = [labelOf (scoreOf pol review)] ∧
    (scoreOf pol review > 0.05 → labelOf (scoreOf pol review) = "positive") ∧
    (¬ scoreOf pol review > 0.05 → scoreOf pol review > 0 →
      labelOf (scoreOf pol review) = "very positive") ∧
    (¬ scoreOf pol review > 0.05 → ¬ scoreOf pol review > 0 →
      scoreOf pol review < -0.05 → labelOf (scoreOf pol review) = "negative") ∧
    (¬ scoreOf pol review > 0.05 → ¬ scoreOf pol review > 0 →
      ¬ scoreOf pol review < -0.05 → scoreOf pol review < 0 →
      labelOf (scoreOf pol review) = "very negative") ∧
    (¬ scoreOf pol review > 0.05 → ¬ scoreOf pol review > 0 →
      ¬ scoreOf pol review < -0.05 → ¬ scoreOf pol review < 0 →
      labelOf (scoreOf pol review) = "neutral") ∧
    labelOf (3 / 100) = "very positive" ∧
    labelOf (1 / 10) = "positive" ∧
    labelOf 0 = "neutral" := by
  refine ⟨?_, ?_, ?_, ?_, ?_, ?_, ?_, ?_, ?_⟩
  · rw [analyze_sentiment, List.foldl_cons, List.foldl_nil, classifyStep_label pol _ review h]
    rfl
  · intro h1; rw [labelOf, if_pos h1]
  · intro h1 h2; rw [labelOf, if_neg h1, if_pos h2]
  · intro h1 h2 h3; rw [labelOf, if_neg h1, if_neg h2, if_pos h3]
  · intro h1 h2 h3 h4; rw [labelOf, if_neg h1, if_neg h2, if_neg h3, if_pos h4]
  · intro h1 h2 h3 h4; rw [labelOf, if_neg h1, if_neg h2, if_neg h3, if_neg h4]
  · norm_num [labelOf]
  · norm_num [labelOf]
  · norm_num [labelOf]

theorem lexicon_threshold_policy_witness :
    (analyze_sentiment (fun _ => (3 : ℚ) / 100) [["nice"]]).2
      = [labelOf (scoreOf (fun _ => (3 : ℚ) / 100) ["nice"])] ∧
    labelOf (scoreOf (fun _ => (3 : ℚ) / 100) ["nice"]) = "very positive" :=
  ⟨(lexicon_threshold_policy (fun _ => (3 : ℚ) / 100) ["nice"] (by decide)).1,
   (lexicon_threshold_policy (fun _ => (3 : ℚ) / 100) ["nice"] (by decide)).2.2.1
     (by norm_num [scoreOf]) (by norm_num [scoreOf])⟩


/-- C4 counterexample: with tokenized reviews of which the first is
empty and the second scores positive, the per item listing pairs the
single produced label with the title of the first review instead of the
title of the second review that produced it, refuting the claim that the
aggregator does not misalign titles and labels by zipping positionally. -/
theorem sia_pairs_misaligned_on_skip :
    sia_pairs (analyze_sentiment (fun _ => (1 : ℚ) / 10) [[], ["good"]]).2
        [(1, "T1"), (2, "T2")]
      = [(1, "T1", "positive")] ∧
    ((1, "T1", "positive") : Nat × String × String) ≠ (2, "T2", "positive") := by
  constructor
  · norm_num [analyze_sentiment, classifyStep, scoreOf, initialCounts, sia_pairs,
      List.enumFrom]
  · decide

theorem zip_enumFrom_pairs_get (n : Nat) :
    ∀ (s : List String) (t : List (Nat × String)) (j : Nat)
      (h1 : j < s.length) (h2 : j < t.length),
      ((List.zip (s.enumFrom n) t).map (fun q => (q.1.1, q.2.2, q.1.2))).get? j
        = some (n + j, (t.get ⟨j, h2⟩).2, s.get ⟨j, h1⟩) := by
  intro s
  induction s generalizing n with
  | nil => intro t j h1 h2; simp at h1
  | cons a s ih =>
      intro t j h1 h2
      cases t with
      | nil => simp at h2
      | cons b t =>
          cases j with
          | zero => simp [List.enumFrom]
          | succ j =>
              simp only [List.enumFrom, List.zip_cons_cons, List.map_cons,
                List.get?_cons_succ, List.length_cons, Nat.add_lt_add_iff_right] at h1 h2 ⊢
              rw [ih (n + 1) t j (by omega) (by omega)]
              congr 2
              omega

/-- C4 amended: the report listing zips the label sequence positionally
against the titles mapping: the listing length is the minimum of the two
lengths and the row at position j carries display index j plus one, the
title text of the titles entry at position j and the label at position j,
so skipped empty reviews shift labels onto the titles of earlier reviews
and trailing titles are dropped. -/
theorem sia_pairs_positional (review_sentiments : List String)
    (titles : List (Nat × String)) :
    (sia_pairs review_sentiments titles).length
        = min review_sentiments.length titles.length ∧
    (∀ (j : Nat) (h1 : j < review_sentiments.length) (h2 : j < titles.length),
      (sia_pairs review_sentiments titles).get? j
        = some (j + 1, (titles.get ⟨j, h2⟩).2, review_sentiments.get ⟨j, h1⟩)) := by
  constructor
  · simp [sia_pairs]
  · intro j h1 h2
    rw [sia_pairs, zip_enumFrom_pairs_get 1 review_sentiments titles j h1 h2]
    congr 2
    omega

theorem sia_pairs_positional_witness :
    (sia_pairs ["positive"] [(1, "T1"), (2, "T2")]).length = min 1 2 ∧
    (sia_pairs ["positive"] [(1, "T1"), (2, "T2")]).get? 0
      = some (1, "T1", "positive") :=
  ⟨(sia_pairs_positional ["positive"] [(1, "T1"), (2, "T2")]).1,
   (sia_pairs_positional ["positive"] [(1, "T1"), (2, "T2")]).2 0
     (by decide) (by decide)⟩

/-- C9: the percentage computations of the report refuse a zero item
total: with a zero total the SIA percentages and the BERT percentage are
a raised division by zero error rather than a zero percentage, and with
a positive total they return the selected counts divided by the total,
formatted to four decimal places as a percentage. -/
theorem summarize_zero_total_is_error (counts : SentimentCounts) (predictions : List String) :
    (sumCounts counts = 0 →
      display_SIA_percentages counts = Except.error "ZeroDivisionError") ∧
    (0 < sumCounts counts →
      display_SIA_percentages counts = Except.ok
        (format_pct (((counts.very_positive : ℚ) + (counts.positive : ℚ)) / (sumCounts counts : ℚ)),
         format_pct (((counts.very_negative : ℚ) + (counts.negative : ℚ)) / (sumCounts counts : ℚ)),
         format_pct ((counts.neutral : ℚ) / (sumCounts counts : ℚ)))) ∧
    (predictions = [] →
      display_BERT_percentage predictions = Except.error "ZeroDivisionError") ∧
    (predictions ≠ [] →
      display_BERT_percentage predictions = Except.ok
        (format_pct (((predictions.filter (fun s => s = "positive")).length : ℚ)
          / (predictions.length : ℚ)))) := by
  refine ⟨?_, ?_, ?_, ?_⟩
  · intro h; simp [display_SIA_percentages, h]
  · intro h; simp [display_SIA_percentages, Nat.pos_iff_ne_zero.mp h]
  · intro h; simp [display_BERT_percentage, h]
  · intro h
    simp [display_BERT_percentage, List.length_eq_zero, h]

theorem summarize_zero_total_is_error_witness :
    display_SIA_percentages initialCounts = Except.error "ZeroDivisionError" ∧
    display_BERT_percentage ["positive", "negative"]
      = Except.ok (format_pct ((1 : ℚ) / (2 : ℚ))) := by
  constructor
  · exact (summarize_zero_total_is_error initialCounts []).1 rfl
  · have h := (summarize_zero_total_is_error initialCounts ["positive", "negative"]).2.2.2
      (by decide)
    simpa using h



theorem dlookup_map_overwrite (k : Nat) (v : String) :
    ∀ d : List (Nat × String), d.any (fun p => p.1 = k) = true →
      dlookup (d.map (fun p => if p.1 = k then (k, v) else p)) k = some v := by
  intro d
  induction d with
  | nil => intro h; simp at h
  | cons q rest ih =>
      intro h
      by_cases hq : q.1 = k
      · simp [dlookup, hq]
      · simp only [List.any_cons, Bool.or_eq_true, decide_eq_true_eq] at h
        rcases h with h | h
        · exact absurd h hq
        · simp only [List.map_cons, if_neg hq, dlookup, if_neg hq]
          exact ih h

theorem dlookup_append_right (k : Nat) (l : List (Nat × String)) :
    ∀ d : List (Nat × String), d.any (fun p => p.1 = k) = false →
      dlookup (d ++ l) k = dlookup l k := by
  intro d
  induction d with
  | nil => intro _; rfl
  | cons q rest ih =>
      intro h
      simp only [List.any_cons, Bool.or_eq_false_iff, decide_eq_false_iff_not] at h
      simp only [List.cons_append, dlookup, if_neg h.1]
      exact ih h.2

theorem dlookup_dictUpdate_self (d : List (Nat × String)) (k : Nat) (v : String) :
    dlookup (dictUpdate d k v) k = some v := by
  rw [dictUpdate]
  split_ifs with h
  · exact dlookup_map_overwrite k v d h
  · rw [dlookup_append_right k _ d (Bool.eq_false_iff.mpr h)]
    simp [dlookup]

theorem dlookup_map_replace_other (k k2 : Nat) (v : String) (hne : k2 ≠ k) :
    ∀ d : List (Nat × String),
      dlookup (d.map (fun p => if p.1 = k then (k, v) else p)) k2 = dlookup d k2 := by
  intro d
  induction d with
  | nil => rfl
  | cons q rest ih =>
      by_cases hq : q.1 = k
      · have hq2 : ¬ q.1 = k2 := by rw [hq]; exact fun hh => hne (Eq.symm hh)
        have hk2 : ¬ k = k2 := fun hh => hne (Eq.symm hh)
        simp only [List.map_cons, if_pos hq, dlookup, if_neg hq2, if_neg hk2, ih]
      · simp only [List.map_cons, if_neg hq, dlookup, ih]

theorem dlookup_append_single_other (k k2 : Nat) (v : String) (hne : k2 ≠ k) :
    ∀ d : List (Nat × String), dlookup (d ++ [(k, v)]) k2 = dlookup d k2 := by
  intro d
  induction d with
  | nil => simp [dlookup, Ne.symm hne]
  | cons q rest ih =>
      simp [List.cons_append, dlookup, ih]

theorem dlookup_dictUpdate_other (d : List (Nat × String)) (k k2 : Nat) (v : String)
    (hne : k2 ≠ k) : dlookup (dictUpdate d k v) k2 = dlookup d k2 := by
  rw [dictUpdate]
  split_ifs with h
  · exact dlookup_map_replace_other k k2 v hne d
  · exact dlookup_append_single_other k k2 v hne d

theorem dlookup_dictUpdateMany_notmem (k : Nat) :
    ∀ (kvs : List (Nat × String)) (d : List (Nat × String)),
      (∀ q ∈ kvs, q.1 ≠ k) → dlookup (dictUpdateMany d kvs) k = dlookup d k := by
  intro kvs
  induction kvs with
  | nil => intro d _; rfl
  | cons q rest ih =>
      intro d h
      rw [dictUpdateMany, List.foldl_cons]
      rw [show (List.foldl (fun acc p => dictUpdate acc p.1 p.2)
          (dictUpdate d q.1 q.2) rest) = dictUpdateMany (dictUpdate d q.1 q.2) rest from rfl]
      rw [ih (dictUpdate d q.1 q.2) (fun p hp => h p (by simp [hp]))]
      exact dlookup_dictUpdate_other d q.1 k q.2 (fun hh => h q (by simp) (Eq.symm hh))

theorem dlookup_dictUpdateMany_mem (k : Nat) (v : String) :
    ∀ (kvs : List (Nat × String)) (d : List (Nat × String)),
      (kvs.map Prod.fst).Nodup → (k, v) ∈ kvs →
      dlookup (dictUpdateMany d kvs) k = some v := by
  intro kvs
  induction kvs with
  | nil => intro d _ h; simp at h
  | cons q rest ih =>
      intro d hnd hmem
      rw [List.map_cons, List.nodup_cons] at hnd
      rw [dictUpdateMany, List.foldl_cons]
      rw [show (List.foldl (fun acc p => dictUpdate acc p.1 p.2)
          (dictUpdate d q.1 q.2) rest) = dictUpdateMany (dictUpdate d q.1 q.2) rest from rfl]
      rcases List.mem_cons.mp hmem with heq | hmem2
      · rw [← heq] at hnd ⊢
        rw [dlookup_dictUpdateMany_notmem k rest (dictUpdate d k v)
          (fun p hp hpk => hnd.1 (List.mem_map.mpr ⟨p, hp, hpk⟩))]
        exact dlookup_dictUpdate_self d k v
      · exact ih (dictUpdate d q.1 q.2) hnd.2 hmem2


theorem enumFrom_map_fst (l : List String) :
    ∀ n : Nat, (l.enumFrom n).map Prod.fst = List.range' n l.length := by
  induction l with
  | nil => intro n; rfl
  | cons a rest ih =>
      intro n
      simp [List.enumFrom, List.range', ih (n + 1)]

theorem range'_map_add_right (c : Nat) :
    ∀ (n s : Nat), (List.range' s n).map (fun x => x + c) = List.range' (s + c) n := by
  intro n
  induction n with
  | zero => intro s; rfl
  | succ m ih =>
      intro s
      simp [List.range', ih (s + 1)]
      omega

theorem enumFrom_mem_get (l : List String) :
    ∀ (n i : Nat) (h : i < l.length), (n + i, l.get ⟨i, h⟩) ∈ l.enumFrom n := by
  induction l with
  | nil => intro n i h; simp at h
  | cons a rest ih =>
      intro n i h
      cases i with
      | zero => simp [List.enumFrom]
      | succ j =>
          have := ih (n + 1) j (by simpa using h)
          simp only [List.enumFrom, List.mem_cons]
          right
          have heq : n + 1 + j = n + (j + 1) := by omega
          rw [← heq]
          exact this

theorem pageKVs_map_fst (p : Nat) (pd : PageData) :
    (pageKVs p pd).map Prod.fst = List.range' ((p - 1) * 10 + 1) pd.titles.length := by
  rw [pageKVs, List.map_map]
  have : (Prod.fst ∘ fun q : Nat × String => (q.1 + (p - 1) * 10, q.2))
      = (fun x => x + (p - 1) * 10) ∘ Prod.fst := rfl
  rw [this, ← List.map_map, enumFrom_map_fst, range'_map_add_right]
  congr 1
  omega

theorem pageKVs_keys_nodup (p : Nat) (pd : PageData) :
    ((pageKVs p pd).map Prod.fst).Nodup := by
  rw [pageKVs_map_fst]
  exact List.nodup_range' ..

theorem pageKVs_key_bound (p : Nat) (pd : PageData) (kv : Nat × String)
    (h : kv ∈ pageKVs p pd) :
    (p - 1) * 10 + 1 ≤ kv.1 ∧ kv.1 < (p - 1) * 10 + 1 + pd.titles.length := by
  have : kv.1 ∈ (pageKVs p pd).map Prod.fst := List.mem_map.mpr ⟨kv, h, rfl⟩
  rw [pageKVs_map_fst] at this
  exact List.mem_range'_1.mp this

theorem pageKVs_mem_get (p : Nat) (pd : PageData) (i : Nat) (hi : i < pd.titles.length) :
    ((i + 1) + (p - 1) * 10, pd.titles.get ⟨i, hi⟩) ∈ pageKVs p pd := by
  rw [pageKVs]
  have h1 : (1 + i, pd.titles.get ⟨i, hi⟩) ∈ pd.titles.enumFrom 1 :=
    enumFrom_mem_get pd.titles 1 i hi
  have h2 : ((1 + i) + (p - 1) * 10, pd.titles.get ⟨i, hi⟩) ∈
      (pd.titles.enumFrom 1).map (fun q : Nat × String => (q.1 + (p - 1) * 10, q.2)) :=
    List.mem_map.mpr ⟨(1 + i, pd.titles.get ⟨i, hi⟩), h1, rfl⟩
  simpa [Nat.add_comm 1 i] using h2

theorem scrape_step_titles (fetch : Nat → Option PageData) (c : Corpus) (p : Nat) :
    (scrape_step fetch c p).titles =
      match fetch p with
      | none => c.titles
      | some pd =>
          if pd.titles = [] ∨ pd.bodies = [] then c.titles
          else dictUpdateMany c.titles (pageKVs p pd) := by
  rw [scrape_step, mergeResult_titles]
  cases h : fetch p with
  | none => simp [scrape_page]
  | some pd =>
      simp only [scrape_page]
      by_cases hg : pd.titles = [] ∨ pd.bodies = []
      · rw [if_pos, if_pos hg]
        rcases hg with hg | hg <;> simp [enumFrom_eq_nil_iff, hg]
      · rw [if_neg, if_neg hg]
        · rfl
        · rw [enumFrom_eq_nil_iff]
          exact hg


theorem scrape_step_titles_preserve (fetch : Nat → Option PageData) (c : Corpus)
    (q k : Nat)
    (hk : ∀ pdq : PageData, fetch q = some pdq → ∀ kv ∈ pageKVs q pdq, kv.1 ≠ k) :
    dlookup (scrape_step fetch c q).titles k = dlookup c.titles k := by
  rw [scrape_step_titles]
  cases h : fetch q with
  | none => rfl
  | some pdq =>
      simp only
      split_ifs with hg
      · rfl
      · exact dlookup_dictUpdateMany_notmem k (pageKVs q pdq) c.titles
          (fun kv hkv => hk pdq h kv hkv)

theorem foldl_scrape_titles_preserve (fetch : Nat → Option PageData) (p k : Nat)
    (hp1 : 1 ≤ p) (hklo : (p - 1) * 10 + 1 ≤ k) (hkhi : k ≤ (p - 1) * 10 + 10) :
    ∀ (rest : List Nat) (c : Corpus),
      (∀ q ∈ rest, q ≠ p ∧ 1 ≤ q ∧
        ∀ pdq : PageData, fetch q = some pdq → pdq.titles.length ≤ 10) →
      dlookup ((rest.foldl (scrape_step fetch) c).titles) k = dlookup c.titles k := by
  intro rest
  induction rest with
  | nil => intro c _; rfl
  | cons q rest ih =>
      intro c h
      obtain ⟨hqp, hq1, hq10⟩ := h q (by simp)
      rw [List.foldl_cons, ih (scrape_step fetch c q) (fun r hr => h r (by simp [hr]))]
      apply scrape_step_titles_preserve
      intro pdq hf kv hkv
      have hb := pageKVs_key_bound q pdq kv hkv
      have hlen := hq10 pdq hf
      omega

theorem foldl_scrape_titles_get (fetch : Nat → Option PageData) :
    ∀ (order : List Nat), order.Nodup →
      (∀ q ∈ order, 1 ≤ q) →
      (∀ q ∈ order, ∀ pdq : PageData, fetch q = some pdq → pdq.titles.length ≤ 10) →
      ∀ p ∈ order, ∀ pd : PageData, fetch p = some pd →
        pd.titles ≠ [] → pd.bodies ≠ [] →
        ∀ (i : Nat) (hi : i < pd.titles.length) (c : Corpus),
          dlookup ((order.foldl (scrape_step fetch) c).titles) ((i + 1) + (p - 1) * 10)
            = some (pd.titles.get ⟨i, hi⟩) := by
  intro order
  induction order with
  | nil => intro _ _ _ p hp; simp at hp
  | cons q rest ih =>
      intro hnd h1 h10 p hp pd hf ht hb i hi c
      rw [List.nodup_cons] at hnd
      rw [List.foldl_cons]
      rcases List.mem_cons.mp hp with hpq | hprest
      · subst hpq
        have hlen : pd.titles.length ≤ 10 := h10 p (by simp) pd hf
        rw [foldl_scrape_titles_preserve fetch p ((i + 1) + (p - 1) * 10)
          (h1 p (by simp)) (by omega) (by omega) rest (scrape_step fetch c p)
          (fun r hr => ⟨fun hrp => hnd.1 (hrp ▸ hr), h1 r (by simp [hr]),
            h10 r (by simp [hr])⟩)]
        rw [scrape_step_titles]
        simp only [hf]
        rw [if_neg (by simp [ht, hb])]
        exact dlookup_dictUpdateMany_mem ((i + 1) + (p - 1) * 10) _ (pageKVs p pd)
          c.titles (pageKVs_keys_nodup p pd) (pageKVs_mem_get p pd i hi)
      · exact ih hnd.2 (fun r hr => h1 r (by simp [hr]))
          (fun r hr => h10 r (by simp [hr])) p hprest pd hf ht hb i hi
            (scrape_step fetch c q)


/-- C8 counterexample: a successfully fetched page whose body list is
empty contributes no title at all (the title of page 1 local index 1 is
absent from the mapping), and when a page carries eleven titles its
eleventh global index collides with the first index of the next page, so
the stored title at global index 11 depends on the completion order;
both scenarios refute the claim as stated. -/
theorem title_global_index_violations :
    (scrape_reviews_concurrently
        (fun p => if p = 1 then some ⟨["T"], [], none⟩ else none) [1]).titles = [] ∧
    dlookup (scrape_reviews_concurrently
        (fun p => if p = 1 then
            some ⟨["A1", "A2", "A3", "A4", "A5", "A6", "A7", "A8", "A9", "A10", "A11"],
              ["x"], none⟩
          else if p = 2 then some ⟨["B1"], ["y"], none⟩ else none) [1, 2]).titles 11
      = some "B1" ∧
    dlookup (scrape_reviews_concurrently
        (fun p => if p = 1 then
            some ⟨["A1", "A2", "A3", "A4", "A5", "A6", "A7", "A8", "A9", "A10", "A11"],
              ["x"], none⟩
          else if p = 2 then some ⟨["B1"], ["y"], none⟩ else none) [2, 1]).titles 11
      = some "A11" ∧
    ("B1" : String) ≠ "A11" := by decide

/-- C8 amended: in a run whose completion order is duplicate free over
pages at least 1 and in which every successfully fetched page has at
most ten titles, every successfully fetched page p with nonempty titles
and nonempty bodies has the title at 0 based local position i stored at
global index i plus 1 plus ten times (p minus 1); the stored value does
not mention the order, so the placement is independent of the completion
order. -/
theorem title_global_index_formula (fetch : Nat → Option PageData) (order : List Nat)
    (hnd : order.Nodup) (h1 : ∀ q ∈ order, 1 ≤ q)
    (h10 : ∀ q ∈ order, ∀ pdq : PageData, fetch q = some pdq → pdq.titles.length ≤ 10)
    (p : Nat) (hp : p ∈ order) (pd : PageData) (hf : fetch p = some pd)
    (ht : pd.titles ≠ []) (hb : pd.bodies ≠ []) (i : Nat) (hi : i < pd.titles.length) :
    dlookup (scrape_reviews_concurrently fetch order).titles ((i + 1) + (p - 1) * 10)
      = some (pd.titles.get ⟨i, hi⟩) :=
  foldl_scrape_titles_get fetch order hnd h1 h10 p hp pd hf ht hb i hi _

theorem title_global_index_formula_witness :
    dlookup (scrape_reviews_concurrently
        (fun p => if p = 1 then
            some ⟨["Great", "OK"], ["love it", "it is fine"], some "4.5 out of 5"⟩
          else if p = 2 then some ⟨["Bad"], ["broke fast"], none⟩ else none)
        [2, 1]).titles 11
      = some "Bad" := by
  have h := title_global_index_formula
    (fun p => if p = 1 then
        some ⟨["Great", "OK"], ["love it", "it is fine"], some "4.5 out of 5"⟩
      else if p = 2 then some ⟨["Bad"], ["broke fast"], none⟩ else none)
    [2, 1] (by decide) (by decide)
    (by
      intro q hq pdq hpd
      fin_cases hq <;> simp_all <;> subst hpd <;> decide)
    2 (by decide) ⟨["Bad"], ["broke fast"], none⟩ rfl (by decide) (by decide)
    0 (by decide)
  exact h


end SentimentAnalysis

